import Mathlib

set_option maxRecDepth 100000

/-!
Verification development for the outgoing webhook delivery subsystem of
listmonk: a shallow embedding of the webhook data model (models package),
the delivery manager (webhooks package), the SQL query semantics
(queries/webhooks.sql, migration v5.3.0) and the admin CRUD layer (core
package), together with theorems about the triggered fan-out, the retry
backoff policy, HMAC signing, delivery classification, the pending-row
selection query, the log state machine, worker shutdown and webhook
creation defaults.

Machine integers follow Go semantics: Duration arithmetic is int64 with
two's-complement wraparound, modelled on Int with explicit reduction
modulo 2^64.
-/

/-! ## String constants (models package) -/

def webhookStatusEnabled : String := "enabled"

def webhookStatusDisabled : String := "disabled"

def webhookLogStatusPending : String := "pending"

def webhookLogStatusSuccess : String := "success"

def webhookLogStatusFailed : String := "failed"

def webhookAuthTypeNone : String := "none"

def webhookAuthTypeBasic : String := "basic"

def webhookAuthTypeHMAC : String := "hmac"

/-- List of all subscribable event names, from models.AllWebhookEvents. -/
def allWebhookEvents : List String :=
  ["subscriber.created", "subscriber.updated", "subscriber.deleted",
   "subscriber.optin_start", "subscriber.optin_finish",
   "subscriber.added_to_list", "subscriber.removed_from_list",
   "subscriber.unsubscribed", "subscriber.bounced",
   "campaign.started", "campaign.paused", "campaign.cancelled",
   "campaign.finished"]

/-! ## Data model -/

/-- Endpoint configuration row, from models.Webhook / table webhooks.
Timestamps are integer instants (nanoseconds); payloads and bodies are
byte lists. -/
structure Webhook where
  id : Nat
  uuid : String
  name : String
  url : String
  status : String
  events : List String
  authType : String
  authBasicUser : String
  authBasicPass : String
  authHMACSecret : String
  maxRetries : Int
  retryInterval : String
  timeout : String
  createdAt : Int
deriving DecidableEq, Repr

/-- Delivery log row, from models.WebhookLog / table webhook_logs. -/
structure WebhookLog where
  id : Int
  webhookId : Nat
  event : String
  url : String
  payload : List Nat
  status : String
  responseCode : Option Int
  responseBody : List Nat
  error : String
  attempts : Int
  nextRetryAt : Option Int
  createdAt : Int
deriving DecidableEq, Repr

/-- Joined row returned by get-pending-webhook-logs: a log row plus the
endpoint policy columns, mirroring the webhooks package pendingLog type. -/
structure PendingLog where
  log : WebhookLog
  maxRetries : Int
  timeout : String
  authType : String
  authBasicUser : String
  authBasicPass : String
  authHMACSecret : String
deriving DecidableEq, Repr

/-! ## Go int64 / time.Duration arithmetic -/

/-- Interpretation of an integer as a Go int64: reduce modulo 2^64 and
put the result in the signed range. -/
def wrap64 (n : Int) : Int :=
  let m := n % 18446744073709551616
  if m < 9223372036854775808 then m else m - 18446744073709551616

/-- Nanoseconds in 2*time.Hour. -/
def twoHoursNs : Int := 7200000000000

/-- Nanoseconds in 30*time.Second. -/
def thirtySecondsNs : Int := 30000000000

/-- Embedding of the Go expression
time.Duration(1 shl uint(attempts)) * 30 * time.Second
from Manager.handleDeliveryError. Go shifts by a count of 64 or more
(including converted negative counts) yield 0, and each Duration
multiplication wraps around in int64. -/
def backoffNs (attempts : Int) : Int :=
  let shift : Int := if 0 ≤ attempts ∧ attempts < 64 then wrap64 (2 ^ attempts.toNat) else 0
  wrap64 (wrap64 (shift * 30) * 1000000000)

/-- Backoff after clamping, from Manager.handleDeliveryError: values
greater than two hours are replaced by two hours. -/
def cappedBackoffNs (attempts : Int) : Int :=
  let b := backoffNs attempts
  if b > twoHoursNs then twoHoursNs else b

/-- Backoff formula as the specification states it:
backoff(a) = min(2 hours, 30s * 2 ^ a). This definition follows the
words of the spec and is compared against cappedBackoffNs, which is
translated from the code. -/
def specBackoffNs (a : Nat) : Int := min twoHoursNs (thirtySecondsNs * 2 ^ a)

/-! ## Log state updates (Manager.updateLogSuccess, Manager.updateLogFailed,
Manager.handleDeliveryError; SQL update-webhook-log) -/

/-- Semantics of the update-webhook-log statement applied to a row: set
status, response_code, response_body, error, attempts and next_retry_at. -/
def applyLogUpdate (row : WebhookLog) (status : String) (code : Int)
    (body : List Nat) (err : String) (attempts : Int) (nra : Option Int) : WebhookLog :=
  { row with status := status, responseCode := some code, responseBody := body,
             error := err, attempts := attempts, nextRetryAt := nra }

/-- Manager.updateLogSuccess: terminal success write. -/
def updateLogSuccess (l : PendingLog) (code : Int) (body : List Nat) : WebhookLog :=
  applyLogUpdate l.log webhookLogStatusSuccess code body "" (l.log.attempts + 1) none

/-- Manager.updateLogFailed: terminal failure write. -/
def updateLogFailed (l : PendingLog) (code : Int) (body : List Nat) (err : String) : WebhookLog :=
  applyLogUpdate l.log webhookLogStatusFailed code body err (l.log.attempts + 1) none

/-- Manager.handleDeliveryError: increment attempts; if the retry budget
is exhausted, terminate as failed, otherwise stay pending with
next_retry_at = now + backoff. -/
def handleDeliveryError (l : PendingLog) (nowNs code : Int)
    (body : List Nat) (err : String) : WebhookLog :=
  let attempts := l.log.attempts + 1
  if attempts > l.maxRetries then
    updateLogFailed l code body err
  else
    applyLogUpdate l.log webhookLogStatusPending code body err attempts
      (some (nowNs + cappedBackoffNs attempts))

/-- Branch behaviour of handleDeliveryError, as equations. -/
theorem handleDeliveryError_behavior (l : PendingLog) (nowNs code : Int)
    (body : List Nat) (err : String) :
    (l.log.attempts + 1 > l.maxRetries →
      handleDeliveryError l nowNs code body err =
        applyLogUpdate l.log webhookLogStatusFailed code body err (l.log.attempts + 1) none) ∧
    (¬ l.log.attempts + 1 > l.maxRetries →
      handleDeliveryError l nowNs code body err =
        applyLogUpdate l.log webhookLogStatusPending code body err (l.log.attempts + 1)
          (some (nowNs + cappedBackoffNs (l.log.attempts + 1)))) := by
  constructor <;> intro h <;>
    simp [handleDeliveryError, updateLogFailed, h]

/-- Everywhere below the int64 overflow threshold, the backoff computed
by the code agrees with the backoff formula of the spec; in particular
the first three waits are 60s, 120s and 240s. -/
theorem cappedBackoff_agrees_upto_28 :
    (∀ a : Nat, a < 29 → cappedBackoffNs a = specBackoffNs a) ∧
    cappedBackoffNs 1 = 60000000000 ∧
    cappedBackoffNs 2 = 120000000000 ∧
    cappedBackoffNs 3 = 240000000000 := by
  constructor
  · decide
  · decide

/-- The capped backoff never exceeds two hours, for any attempt count. -/
theorem cappedBackoff_le_twoHours (a : Int) : cappedBackoffNs a ≤ twoHoursNs := by
  unfold cappedBackoffNs
  by_cases h : backoffNs a > twoHoursNs
  · simp [h]
  · simp [h]
    omega

/-- C3: at attempts-after-increment a = 29 the Go Duration product
30s * 2^29 overflows int64 and wraps to a negative value, so the
scheduled delay is not min(2 hours, 30s * 2^29) = 2 hours as the claim
states: the 2-hour cap is bypassed and the delay is negative. -/
theorem backoff_overflow_diverges_from_spec :
    cappedBackoffNs 29 = -2340616713709551616 ∧
    specBackoffNs 29 = twoHoursNs ∧
    cappedBackoffNs 29 ≠ specBackoffNs 29 := by
  refine ⟨by decide, by decide, by decide⟩

/-- Concrete joined row for the overflow evidence: a pending log row
with 28 recorded attempts on an endpoint with max_retries = 29. -/
def plOverflow : PendingLog :=
  { log := { id := 1, webhookId := 1, event := "subscriber.created",
             url := "http://example.invalid/hook", payload := [],
             status := webhookLogStatusPending, responseCode := none,
             responseBody := [], error := "", attempts := 28,
             nextRetryAt := none, createdAt := 0 },
    maxRetries := 29, timeout := "30s", authType := "none",
    authBasicUser := "", authBasicPass := "", authHMACSecret := "" }

/-- C2: finalizing a retryable failure at attempts-after-increment 29
(within the retry budget, max_retries = 29) leaves the row pending with
attempts = 29 and a non-null next_retry_at, but the scheduled
next_retry_at lies about 74 years in the past (now = 0 here), not in the
future as the claim states. -/
theorem handleDeliveryError_overflow_past_retry :
    (handleDeliveryError plOverflow 0 500 [] "non-2xx status: 500").status
        = webhookLogStatusPending ∧
    (handleDeliveryError plOverflow 0 500 [] "non-2xx status: 500").attempts = 29 ∧
    (handleDeliveryError plOverflow 0 500 [] "non-2xx status: 500").nextRetryAt
        = some (-2340616713709551616) ∧
    (-2340616713709551616 : Int) < 0 := by
  refine ⟨by decide, by decide, by decide, by decide⟩

/-! ## Ordering helper (semantics of SQL ORDER BY, kernel-executable) -/

/-- Insertion of an element into a list ordered by the boolean
relation le. -/
def insertBy {α : Type} (le : α → α → Bool) (x : α) : List α → List α
  | [] => [x]
  | y :: ys => if le x y then x :: y :: ys else y :: insertBy le x ys

/-- Stable insertion sort by the boolean relation le; models the SQL
ORDER BY clause. -/
def sortBy {α : Type} (le : α → α → Bool) (l : List α) : List α :=
  l.foldr (insertBy le) []

theorem mem_insertBy {α : Type} (le : α → α → Bool) (x : α) (l : List α) (z : α) :
    z ∈ insertBy le x l ↔ z = x ∨ z ∈ l := by
  induction l with
  | nil => simp [insertBy]
  | cons y ys ih =>
    by_cases h : le x y
    · simp [insertBy, h]
    · simp [insertBy, h, ih]
      tauto

theorem mem_sortBy {α : Type} (le : α → α → Bool) (l : List α) (z : α) :
    z ∈ sortBy le l ↔ z ∈ l := by
  induction l with
  | nil => simp [sortBy]
  | cons y ys ih =>
    simp only [sortBy, List.foldr_cons] at *
    rw [mem_insertBy, ih]
    simp

theorem length_insertBy {α : Type} (le : α → α → Bool) (x : α) (l : List α) :
    (insertBy le x l).length = l.length + 1 := by
  induction l with
  | nil => rfl
  | cons y ys ih =>
    by_cases h : le x y <;> simp [insertBy, h, ih]

theorem length_sortBy {α : Type} (le : α → α → Bool) (l : List α) :
    (sortBy le l).length = l.length := by
  induction l with
  | nil => rfl
  | cons y ys ih => simp [sortBy, length_insertBy] at *; exact ih

theorem pairwise_insertBy {α : Type} (le : α → α → Bool)
    (htot : ∀ a b, le a b = true ∨ le b a = true)
    (htrans : ∀ a b c, le a b = true → le b c = true → le a c = true)
    (x : α) (l : List α) (hl : l.Pairwise (fun a b => le a b = true)) :
    (insertBy le x l).Pairwise (fun a b => le a b = true) := by
  induction l with
  | nil => simp [insertBy]
  | cons y ys ih =>
    rcases List.pairwise_cons.mp hl with ⟨hy, hys⟩
    by_cases h : le x y
    · simp only [insertBy]
      rw [if_pos h]
      refine List.pairwise_cons.mpr ⟨?_, hl⟩
      intro z hz
      rcases List.mem_cons.mp hz with rfl | hz
      · exact h
      · exact htrans x y z h (hy z hz)
    · simp only [insertBy]
      rw [if_neg h]
      refine List.pairwise_cons.mpr ⟨?_, ih hys⟩
      intro z hz
      rw [mem_insertBy] at hz
      rcases hz with hz | hz
      · subst hz
        rcases htot y z with hyz | hzy
        · exact hyz
        · exact absurd hzy h
      · exact hy z hz

theorem pairwise_sortBy {α : Type} (le : α → α → Bool)
    (htot : ∀ a b, le a b = true ∨ le b a = true)
    (htrans : ∀ a b c, le a b = true → le b c = true → le a c = true)
    (l : List α) :
    (sortBy le l).Pairwise (fun a b => le a b = true) := by
  induction l with
  | nil => simp [sortBy]
  | cons y ys ih =>
    simpa only [sortBy, List.foldr_cons] using pairwise_insertBy le htot htrans y _ ih

/-! ## Trigger API (Manager.Trigger; SQL get-webhooks-by-event,
create-webhook-log) -/

/-- Semantics of get-webhooks-by-event: endpoints with status enabled
whose events array contains the event, ordered by created_at. -/
def getWebhooksByEvent (db : List Webhook) (event : String) : List Webhook :=
  sortBy (fun a b => decide (a.createdAt ≤ b.createdAt))
    (db.filter (fun w => w.status == webhookStatusEnabled && w.events.contains event))

/-- Payload object serialized by Trigger, from models.WebhookEvent. -/
structure WebhookEvent where
  event : String
  timestamp : Int
  data : String
deriving DecidableEq, Repr

/-- Environment of one Trigger call: whether the endpoint lookup fails,
the clock reading taken during the call, the JSON serializer (returning
none on a serialization error), and which per-endpoint insert statements
fail (indexed by position in the fan-out). -/
structure TriggerEnv where
  selectFails : Bool
  now : Int
  marshal : WebhookEvent → Option (List Nat)
  insertFails : Nat → Bool

inductive TriggerResult where
  | ok
  | err
deriving DecidableEq, Repr

/-- Row inserted by create-webhook-log: explicit columns from the
statement, remaining columns from the schema defaults of migration
v5.3.0 (attempts 0, response_code null, response_body and error empty). -/
def mkLogRow (wh : Webhook) (event : String) (payload : List Nat) (now : Int) : WebhookLog :=
  { id := 0, webhookId := wh.id, event := event, url := wh.url, payload := payload,
    status := webhookLogStatusPending, responseCode := none, responseBody := [],
    error := "", attempts := 0, nextRetryAt := none, createdAt := now }

/-- Per-endpoint insert loop of Manager.Trigger: an insert failure is
logged and skipped, the loop continues with the remaining endpoints. -/
def insertLoop (env : TriggerEnv) (event : String) (payload : List Nat) :
    List (Nat × Webhook) → List WebhookLog
  | [] => []
  | (i, wh) :: rest =>
    if env.insertFails i then insertLoop env event payload rest
    else mkLogRow wh event payload env.now :: insertLoop env event payload rest

/-- Manager.Trigger: look up the enabled endpoints subscribed to the
event; return success with no rows when there are none; serialize the
payload (error aborts with no rows); insert one pending row per
endpoint, skipping failed inserts; return success. -/
def trigger (db : List Webhook) (env : TriggerEnv) (event data : String) :
    TriggerResult × List WebhookLog :=
  if env.selectFails then (TriggerResult.err, [])
  else
    let whs := getWebhooksByEvent db event
    if whs.isEmpty then (TriggerResult.ok, [])
    else
      match env.marshal { event := event, timestamp := env.now, data := data } with
      | none => (TriggerResult.err, [])
      | some payload => (TriggerResult.ok, insertLoop env event payload whs.enum)

theorem insertLoop_all_ok (env : TriggerEnv) (event : String) (payload : List Nat)
    (h : ∀ i, env.insertFails i = false) (l : List (Nat × Webhook)) :
    insertLoop env event payload l = l.map (fun iw => mkLogRow iw.2 event payload env.now) := by
  induction l with
  | nil => rfl
  | cons iw rest ih =>
    obtain ⟨i, wh⟩ := iw
    simp [insertLoop, h i, ih]

theorem insertLoop_mem (env : TriggerEnv) (event : String) (payload : List Nat)
    (l : List (Nat × Webhook)) (iw : Nat × Webhook) (hmem : iw ∈ l)
    (hok : env.insertFails iw.1 = false) :
    mkLogRow iw.2 event payload env.now ∈ insertLoop env event payload l := by
  induction l with
  | nil => cases hmem
  | cons jw rest ih =>
    obtain ⟨j, wh⟩ := jw
    rcases List.mem_cons.mp hmem with heq | hmem2
    · subst heq
      simp [insertLoop, show env.insertFails j = false from hok]
    · by_cases h : env.insertFails j <;> simp only [insertLoop, h] <;>
        simp [ih hmem2]

/-! ## Fixtures for Trigger claims -/

/-- Enabled endpoint subscribed to subscriber.created. -/
def wh0 : Webhook :=
  { id := 1, uuid := "", name := "hook-a", url := "http://example.invalid/a",
    status := webhookStatusEnabled, events := ["subscriber.created"],
    authType := "none", authBasicUser := "", authBasicPass := "",
    authHMACSecret := "", maxRetries := 3, retryInterval := "30s",
    timeout := "30s", createdAt := 0 }

/-- Second enabled endpoint subscribed to subscriber.created. -/
def wh1 : Webhook :=
  { wh0 with id := 2, name := "hook-b", url := "http://example.invalid/b", createdAt := 1 }

/-- Environment where serialization succeeds and every insert fails. -/
def envInsertFailAll : TriggerEnv :=
  { selectFails := false, now := 0, marshal := fun _ => some [123, 125],
    insertFails := fun _ => true }

/-- Environment where serialization and every insert succeed. -/
def envAllOk : TriggerEnv :=
  { envInsertFailAll with insertFails := fun _ => false }

/-- Environment where only the insert for the first endpoint fails. -/
def envFirstFails : TriggerEnv :=
  { envInsertFailAll with insertFails := fun i => i == 0 }

/-- C1 counterexample: with one enabled endpoint subscribed to the event
but a failing insert statement, Trigger returns success yet creates zero
rows, while the number of matching endpoints is one. -/
theorem trigger_partial_insert_counterexample :
    (trigger [wh0] envInsertFailAll "subscriber.created" "d").1 = TriggerResult.ok ∧
    ((trigger [wh0] envInsertFailAll "subscriber.created" "d").2).length = 0 ∧
    (getWebhooksByEvent [wh0] "subscriber.created").length = 1 := by
  refine ⟨by decide, by decide, by decide⟩

/-- C1 (amended): when the endpoint lookup and every per-endpoint insert
succeed, a successful Trigger call creates exactly one row per enabled
endpoint subscribed to the event, each row pending with attempts 0, null
next_retry_at, and payload equal to the serialization of the event
object at the clock reading taken during the call; when no endpoint
matches, Trigger returns success and inserts no rows. -/
theorem trigger_fanout_amended (db : List Webhook) (env : TriggerEnv) (event data : String)
    (hsel : env.selectFails = false)
    (hins : ∀ i, env.insertFails i = false) :
    (getWebhooksByEvent db event = [] →
      trigger db env event data = (TriggerResult.ok, [])) ∧
    ((trigger db env event data).1 = TriggerResult.ok →
      ((trigger db env event data).2.length = (getWebhooksByEvent db event).length ∧
       ∀ r ∈ (trigger db env event data).2,
         r.status = webhookLogStatusPending ∧ r.attempts = 0 ∧ r.nextRetryAt = none ∧
         env.marshal { event := event, timestamp := env.now, data := data }
           = some r.payload)) := by
  constructor
  · intro hempty
    simp [trigger, hsel, hempty]
  · intro hok
    by_cases hemp : (getWebhooksByEvent db event).isEmpty
    · have he : getWebhooksByEvent db event = [] := List.isEmpty_iff.mp hemp
      simp [trigger, hsel, hemp, he]
    · cases hm : env.marshal { event := event, timestamp := env.now, data := data } with
      | none =>
        exfalso
        simp [trigger, hsel, hemp, hm] at hok
      | some p =>
        have ht : trigger db env event data =
            (TriggerResult.ok, insertLoop env event p (getWebhooksByEvent db event).enum) := by
          simp [trigger, hsel, hemp, hm]
        rw [ht]
        rw [insertLoop_all_ok env event p hins]
        constructor
        · simp [List.enum_length]
        · intro r hr
          simp only [List.mem_map] at hr
          obtain ⟨iw, hiw, rfl⟩ := hr
          exact ⟨rfl, rfl, rfl, by simp [hm, mkLogRow]⟩

/-- Witness for the amended C1 theorem at a concrete input. -/
theorem trigger_fanout_amended_witness :
    envAllOk.selectFails = false ∧
    (trigger [wh0] envAllOk "subscriber.created" "d").1 = TriggerResult.ok ∧
    ((trigger [wh0] envAllOk "subscriber.created" "d").2).length
      = (getWebhooksByEvent [wh0] "subscriber.created").length := by
  refine ⟨rfl, by decide, ?_⟩
  exact ((trigger_fanout_amended [wh0] envAllOk "subscriber.created" "d" rfl
    (fun i => rfl)).2 (by decide)).1

/-- C8: when at least one endpoint matches, a serialization failure
makes Trigger return an error with no rows inserted; when serialization
succeeds, Trigger returns success, and each endpoint whose insert
statement succeeds gets its row regardless of insert failures for other
endpoints. -/
theorem trigger_error_paths (db : List Webhook) (env : TriggerEnv) (event data : String)
    (hsel : env.selectFails = false)
    (hne : getWebhooksByEvent db event ≠ []) :
    (env.marshal { event := event, timestamp := env.now, data := data } = none →
      trigger db env event data = (TriggerResult.err, [])) ∧
    (∀ p, env.marshal { event := event, timestamp := env.now, data := data } = some p →
      (trigger db env event data).1 = TriggerResult.ok ∧
      (∀ iw ∈ (getWebhooksByEvent db event).enum, env.insertFails iw.1 = false →
        mkLogRow iw.2 event p env.now ∈ (trigger db env event data).2)) := by
  have hemp : ¬ (getWebhooksByEvent db event).isEmpty := by
    simpa [List.isEmpty_iff] using hne
  constructor
  · intro hm
    simp [trigger, hsel, hemp, hm]
  · intro p hm
    have ht : trigger db env event data =
        (TriggerResult.ok, insertLoop env event p (getWebhooksByEvent db event).enum) := by
      simp [trigger, hsel, hemp, hm]
    rw [ht]
    exact ⟨rfl, fun iw hiw hok2 => insertLoop_mem env event p _ iw hiw hok2⟩

/-- Witness for the C8 theorem: with two matching endpoints and the
first insert failing, the second endpoint still gets its row and the
call returns success. -/
theorem trigger_error_paths_witness :
    envFirstFails.insertFails 1 = false ∧
    (trigger [wh0, wh1] envFirstFails "subscriber.created" "d").1 = TriggerResult.ok ∧
    mkLogRow wh1 "subscriber.created" [123, 125] 0 ∈
      (trigger [wh0, wh1] envFirstFails "subscriber.created" "d").2 := by
  have h := trigger_error_paths [wh0, wh1] envFirstFails "subscriber.created" "d"
    rfl (by decide)
  have h2 := h.2 [123, 125] rfl
  exact ⟨rfl, h2.1, h2.2 (1, wh1) (by decide) rfl⟩

/-! ## SHA-256 and HMAC (crypto/sha256, crypto/hmac), on 32-bit words
modelled as Nat reduced modulo 2^32 -/

/-- Rotation of a 32-bit word to the right by k positions. -/
def rotr32 (x k : Nat) : Nat :=
  ((x >>> k) ||| (x <<< (32 - k))) % 4294967296

def sSig0 (x : Nat) : Nat := (rotr32 x 7) ^^^ (rotr32 x 18) ^^^ (x >>> 3)

def sSig1 (x : Nat) : Nat := (rotr32 x 17) ^^^ (rotr32 x 19) ^^^ (x >>> 10)

def bSig0 (x : Nat) : Nat := (rotr32 x 2) ^^^ (rotr32 x 13) ^^^ (rotr32 x 22)

def bSig1 (x : Nat) : Nat := (rotr32 x 6) ^^^ (rotr32 x 11) ^^^ (rotr32 x 25)

def chFn (x y z : Nat) : Nat := (x &&& y) ^^^ ((x ^^^ 4294967295) &&& z)

def majFn (x y z : Nat) : Nat := (x &&& y) ^^^ (x &&& z) ^^^ (y &&& z)

/-- Round constants of SHA-256. -/
def sha256K : List Nat :=
  [1116352408, 1899447441, 3049323471, 3921009573, 961987163,
   1508970993, 2453635748, 2870763221, 3624381080, 310598401,
   607225278, 1426881987, 1925078388, 2162078206, 2614888103,
   3248222580, 3835390401, 4022224774, 264347078, 604807628,
   770255983, 1249150122, 1555081692, 1996064986, 2554220882,
   2821834349, 2952996808, 3210313671, 3336571891, 3584528711,
   113926993, 338241895, 666307205, 773529912, 1294757372,
   1396182291, 1695183700, 1986661051, 2177026350, 2456956037,
   2730485921, 2820302411, 3259730800, 3345764771, 3516065817,
   3600352804, 4094571909, 275423344, 430227734, 506948616,
   659060556, 883997877, 958139571, 1322822218, 1537002063,
   1747873779, 1955562222, 2024104815, 2227730452, 2361852424,
   2428436474, 2756734187, 3204031479, 3329325298]

/-- Initial hash state of SHA-256. -/
def sha256H0 : List Nat :=
  [1779033703, 3144134277, 1013904242, 2773480762,
   1359893119, 2600822924, 528734635, 1541459225]

/-- Big-endian byte representation, k bytes wide. -/
def beBytes : Nat → Nat → List Nat
  | 0, _ => []
  | k + 1, n => beBytes k (n / 256) ++ [n % 256]

/-- SHA-256 message padding: byte 0x80, zeros to 56 mod 64, then the
bit length on 8 big-endian bytes. -/
def sha256Pad (msg : List Nat) : List Nat :=
  msg ++ 128 :: List.replicate ((119 - msg.length % 64) % 64) 0 ++ beBytes 8 (msg.length * 8)

/-- Split a padded message into 64-byte blocks. -/
def toBlocks (l : List Nat) : List (List Nat) :=
  if h : l = [] then [] else l.take 64 :: toBlocks (l.drop 64)
termination_by l.length
decreasing_by
  simp only [List.length_drop]
  have hp : 0 < l.length := List.length_pos.mpr h
  omega

/-- Big-endian 32-bit word number i of a block. -/
def beWord (block : List Nat) (i : Nat) : Nat :=
  block.getD (4 * i) 0 * 16777216 + block.getD (4 * i + 1) 0 * 65536 +
    block.getD (4 * i + 2) 0 * 256 + block.getD (4 * i + 3) 0

/-- One extension step of the SHA-256 message schedule. -/
def scheduleStep (w : List Nat) : List Nat :=
  w ++ [(sSig1 (w.getD (w.length - 2) 0) + w.getD (w.length - 7) 0 +
         sSig0 (w.getD (w.length - 15) 0) + w.getD (w.length - 16) 0) % 4294967296]

/-- Full 64-word message schedule of a block. -/
def msgSchedule (block : List Nat) : List Nat :=
  (List.range 48).foldl (fun w _ => scheduleStep w) ((List.range 16).map (beWord block))

/-- One SHA-256 compression round on the eight-word state. -/
def compressRound (s : List Nat) (kw : Nat × Nat) : List Nat :=
  match s with
  | [a, b, c, d, e, f, g, h] =>
    let t1 := (h + bSig1 e + chFn e f g + kw.1 + kw.2) % 4294967296
    let t2 := (bSig0 a + majFn a b c) % 4294967296
    [(t1 + t2) % 4294967296, a, b, c, (d + t1) % 4294967296, e, f, g]
  | _ => s

/-- Compression of one 64-byte block into the hash state. -/
def processBlock (h : List Nat) (block : List Nat) : List Nat :=
  let s := (sha256K.zip (msgSchedule block)).foldl compressRound h
  (h.zip s).map (fun p => (p.1 + p.2) % 4294967296)

/-- SHA-256 of a byte list. -/
def sha256 (msg : List Nat) : List Nat :=
  ((toBlocks (sha256Pad msg)).foldl processBlock sha256H0).foldr
    (fun x acc => beBytes 4 x ++ acc) []

/-- HMAC-SHA256 with the given key and message bytes. -/
def hmacSha256 (key msg : List Nat) : List Nat :=
  let k0 := if key.length > 64 then sha256 key else key
  let k := k0 ++ List.replicate (64 - k0.length) 0
  sha256 ((k.map (fun b => b ^^^ 0x5c)) ++ sha256 ((k.map (fun b => b ^^^ 0x36)) ++ msg))

/-- Lowercase hexadecimal digit. -/
def hexDigit (n : Nat) : Char := if n < 10 then Char.ofNat (48 + n) else Char.ofNat (87 + n)

/-- Lowercase hexadecimal encoding of a byte list (hex.EncodeToString). -/
def hexEncode (bs : List Nat) : String :=
  String.mk (bs.foldr (fun b acc => hexDigit (b / 16 % 16) :: hexDigit (b % 16) :: acc) [])

/-- UTF-8 encoding of one code point. -/
def utf8Enc (c : Nat) : List Nat :=
  if c < 128 then [c]
  else if c < 2048 then [192 + c / 64, 128 + c % 64]
  else if c < 65536 then [224 + c / 4096, 128 + c / 64 % 64, 128 + c % 64]
  else [240 + c / 262144, 128 + c / 4096 % 64, 128 + c / 64 % 64, 128 + c % 64]

/-- Byte content of a Go string (UTF-8). -/
def strBytes (s : String) : List Nat :=
  s.data.foldr (fun ch acc => utf8Enc ch.toNat ++ acc) []

theorem strBytes_foldr_init (l : List Char) (init : List Nat) :
    l.foldr (fun ch acc => utf8Enc ch.toNat ++ acc) init
      = l.foldr (fun ch acc => utf8Enc ch.toNat ++ acc) [] ++ init := by
  induction l with
  | nil => simp
  | cons c cs ih => simp [ih]

theorem strBytes_append (a b : String) :
    strBytes (a ++ b) = strBytes a ++ strBytes b := by
  show (a ++ b).data.foldr _ [] = _
  rw [String.data_append, List.foldr_append]
  exact strBytes_foldr_init a.data (strBytes b)

/-! ## Signer and request construction (Manager.computeHMAC,
Manager.deliverWebhook) -/

/-- Manager.computeHMAC: MAC over decimal timestamp, a dot, and the
payload bytes, with the secret as key; lowercase hex output prefixed
with sha256=. Total function: deterministic in its inputs, no error
path. -/
def computeHMAC (payload : List Nat) (secret : String) (timestamp : Int) : String :=
  let data := strBytes (toString timestamp) ++ [46] ++ payload
  "sha256=" ++ hexEncode (hmacSha256 (strBytes secret) data)

/-- Signer operation as the specification words it:
sign(payload, secret, ts) = sha256= plus
lower_hex(HMAC_SHA256(secret, ts + "." + payload)). This definition
follows the spec and is compared with computeHMAC, which is translated
from the code. -/
def signSpec (payload : List Nat) (secret : String) (ts : Int) : String :=
  "sha256=" ++ hexEncode (hmacSha256 (strBytes secret) (strBytes (toString ts ++ ".") ++ payload))

theorem computeHMAC_eq_signSpec (payload : List Nat) (secret : String) (ts : Int) :
    computeHMAC payload secret ts = signSpec payload secret ts := by
  have h46 : strBytes "." = [46] := by decide
  simp [computeHMAC, signSpec, strBytes_append, h46]

/-- Outgoing HTTP request as assembled by Manager.deliverWebhook. -/
structure HTTPRequest where
  method : String
  url : String
  headers : List (String × String)
  basicAuth : Option (String × String)
  body : List Nat
deriving DecidableEq, Repr

/-- Header assembly of Manager.deliverWebhook: fixed headers, then
basic auth or the HMAC signature and timestamp pair depending on the
auth type, with one clock reading used for both HMAC headers. -/
def buildRequest (l : PendingLog) (nowUnix : Int) : HTTPRequest :=
  let base : HTTPRequest :=
    { method := "POST", url := l.log.url,
      headers := [("Content-Type", "application/json"),
                  ("User-Agent", "listmonk-webhook/1.0"),
                  ("X-Listmonk-Event", l.log.event),
                  ("X-Listmonk-Delivery", toString l.log.id)],
      basicAuth := none, body := l.log.payload }
  if l.authType = webhookAuthTypeBasic then
    { base with basicAuth := some (l.authBasicUser, l.authBasicPass) }
  else if l.authType = webhookAuthTypeHMAC then
    { base with headers := base.headers ++
        [("X-Listmonk-Signature", computeHMAC l.log.payload l.authHMACSecret nowUnix),
         ("X-Listmonk-Timestamp", toString nowUnix)] }
  else base

/-- First value of a header in a request. -/
def headerValue (r : HTTPRequest) (key : String) : Option String :=
  (r.headers.find? (fun p => p.1 == key)).map (fun p => p.2)

/-- C4: in hmac mode the outgoing signature header equals the Signer
formula of the spec applied to the frozen payload, the stored secret and
the single timestamp read during the attempt; the timestamp header
carries that same timestamp in decimal; and the code signature function
agrees with the spec signature formula (a total function of payload,
secret and timestamp). -/
theorem hmac_headers_match_signer_spec (l : PendingLog) (ts : Int)
    (h : l.authType = webhookAuthTypeHMAC) :
    headerValue (buildRequest l ts) "X-Listmonk-Signature"
      = some (signSpec l.log.payload l.authHMACSecret ts) ∧
    headerValue (buildRequest l ts) "X-Listmonk-Timestamp" = some (toString ts) ∧
    computeHMAC l.log.payload l.authHMACSecret ts
      = signSpec l.log.payload l.authHMACSecret ts := by
  refine ⟨?_, ?_, computeHMAC_eq_signSpec _ _ _⟩ <;>
    simp [buildRequest, h, webhookAuthTypeHMAC, webhookAuthTypeBasic, headerValue,
      List.find?, computeHMAC_eq_signSpec]

/-- Concrete hmac-mode joined row for the C4 witness. -/
def plHmac : PendingLog :=
  { log := { id := 7, webhookId := 1, event := "subscriber.created",
             url := "http://example.invalid/hook", payload := [123, 125],
             status := webhookLogStatusPending, responseCode := none,
             responseBody := [], error := "", attempts := 0,
             nextRetryAt := none, createdAt := 0 },
    maxRetries := 3, timeout := "30s", authType := webhookAuthTypeHMAC,
    authBasicUser := "", authBasicPass := "", authHMACSecret := "k" }

/-- Witness for the C4 theorem at a concrete hmac-mode row and the
timestamp 1700000000. -/
theorem hmac_headers_match_signer_spec_witness :
    plHmac.authType = webhookAuthTypeHMAC ∧
    headerValue (buildRequest plHmac 1700000000) "X-Listmonk-Timestamp"
      = some (toString (1700000000 : Int)) :=
  ⟨rfl, (hmac_headers_match_signer_spec plHmac 1700000000 rfl).2.1⟩

/-! ## Response handling (Manager.deliverWebhook, lines reading the
response and classifying the outcome) -/

/-- Manager.deliverWebhook once a response has been received: read at
most 1024 bytes of the body, then classify by status code; a code in
the interval from 200 inclusive to 300 exclusive is a success, anything
else goes through handleDeliveryError. -/
def deliverResponse (l : PendingLog) (nowNs code : Int) (fullBody : List Nat) : WebhookLog :=
  let body := fullBody.take 1024
  if 200 ≤ code ∧ code < 300 then updateLogSuccess l code body
  else handleDeliveryError l nowNs code body ("non-2xx status: " ++ toString code)

theorem handleDeliveryError_status_ne_success (l : PendingLog) (nowNs code : Int)
    (body : List Nat) (err : String) :
    (handleDeliveryError l nowNs code body err).status ≠ webhookLogStatusSuccess := by
  unfold handleDeliveryError
  by_cases h : l.log.attempts + 1 > l.maxRetries <;>
    simp [h, updateLogFailed, applyLogUpdate, webhookLogStatusFailed,
      webhookLogStatusPending, webhookLogStatusSuccess]

/-- C5: a received response is classified as a success exactly when its
status code lies in the interval from 200 inclusive to 300 exclusive,
and on success the row is written terminally: status success, the
received code, the body truncated to 1024 bytes, empty error, attempts
incremented by one, null next_retry_at. -/
theorem delivery_success_classification (l : PendingLog) (nowNs code : Int)
    (fullBody : List Nat) :
    ((deliverResponse l nowNs code fullBody).status = webhookLogStatusSuccess ↔
      (200 ≤ code ∧ code < 300)) ∧
    (200 ≤ code → code < 300 →
      deliverResponse l nowNs code fullBody =
        applyLogUpdate l.log webhookLogStatusSuccess code (fullBody.take 1024) ""
          (l.log.attempts + 1) none) ∧
    (fullBody.take 1024).length ≤ 1024 := by
  refine ⟨⟨?_, ?_⟩, ?_, ?_⟩
  · intro hs
    by_contra hc
    rw [show deliverResponse l nowNs code fullBody =
          handleDeliveryError l nowNs code (fullBody.take 1024)
            ("non-2xx status: " ++ toString code) from by
        simp [deliverResponse, hc]] at hs
    exact handleDeliveryError_status_ne_success _ _ _ _ _ hs
  · intro hc
    simp [deliverResponse, hc, updateLogSuccess, applyLogUpdate]
  · intro h1 h2
    simp [deliverResponse, h1, h2, updateLogSuccess]
  · simpa using List.length_take_le 1024 fullBody

/-- Witness for the C5 theorem: a 204 response is a success and a 500
response is not. -/
theorem delivery_success_classification_witness :
    (deliverResponse plHmac 0 204 []).status = webhookLogStatusSuccess ∧
    ¬ (deliverResponse plHmac 0 500 []).status = webhookLogStatusSuccess := by
  constructor
  · exact (delivery_success_classification plHmac 0 204 []).1.mpr (by decide)
  · intro hs
    have h := (delivery_success_classification plHmac 0 500 []).1.mp hs
    omega

/-! ## Pending-row selection (SQL get-pending-webhook-logs,
Manager.processPendingLogs) -/

/-- Database state: the two webhook tables. -/
structure DB where
  webhooks : List Webhook
  logs : List WebhookLog
deriving DecidableEq, Repr

/-- Selection predicate of get-pending-webhook-logs: status pending and
next_retry_at null or due. -/
def pendingDuePred (nowNs : Int) (l : WebhookLog) : Bool :=
  l.status == webhookLogStatusPending &&
    (match l.nextRetryAt with
     | none => true
     | some t => decide (t ≤ nowNs))

/-- Join of a log row with its endpoint policy columns. -/
def mkPendingLog (l : WebhookLog) (w : Webhook) : PendingLog :=
  { log := l, maxRetries := w.maxRetries, timeout := w.timeout,
    authType := w.authType, authBasicUser := w.authBasicUser,
    authBasicPass := w.authBasicPass, authHMACSecret := w.authHMACSecret }

/-- Semantics of get-pending-webhook-logs: filter the due pending rows,
join each with its webhook (inner join), order by created_at ascending,
and return at most the first limit rows. -/
def getPendingWebhookLogs (db : DB) (nowNs : Int) (limit : Nat) : List PendingLog :=
  (sortBy (fun a b => decide (a.log.createdAt ≤ b.log.createdAt))
    ((db.logs.filter (pendingDuePred nowNs)).filterMap
      (fun l => (db.webhooks.find? (fun w => w.id == l.webhookId)).map (mkPendingLog l)))).take
    limit

/-- Manager.processPendingLogs: fetch the due rows with limit 100 and
process them in the returned order with the given per-row delivery
action. -/
def processPendingLogs (db : DB) (nowNs : Int) (deliver : PendingLog → WebhookLog) :
    List WebhookLog :=
  (getPendingWebhookLogs db nowNs 100).map deliver

/-- C6: every row returned by the pending-due query is pending and due
(null next_retry_at or next_retry_at at most now); the returned list is
ordered by created_at ascending; at most limit rows are returned; and
the worker processes exactly the rows of a limit-100 fetch, in order. -/
theorem pending_due_selection (db : DB) (nowNs : Int) (limit : Nat) (r : PendingLog)
    (hr : r ∈ getPendingWebhookLogs db nowNs limit) :
    (r.log.status = webhookLogStatusPending ∧
     (r.log.nextRetryAt = none ∨ ∃ t, r.log.nextRetryAt = some t ∧ t ≤ nowNs)) ∧
    (getPendingWebhookLogs db nowNs limit).Pairwise
      (fun a b => a.log.createdAt ≤ b.log.createdAt) ∧
    (getPendingWebhookLogs db nowNs limit).length ≤ limit ∧
    (∀ deliver, processPendingLogs db nowNs deliver
      = (getPendingWebhookLogs db nowNs 100).map deliver) := by
  refine ⟨?_, ?_, ?_, fun _ => rfl⟩
  · have hr2 : r ∈ (db.logs.filter (pendingDuePred nowNs)).filterMap
        (fun l => (db.webhooks.find? (fun w => w.id == l.webhookId)).map (mkPendingLog l)) := by
      have := List.mem_of_mem_take hr
      rwa [mem_sortBy] at this
    rw [List.mem_filterMap] at hr2
    obtain ⟨l, hl, hjoin⟩ := hr2
    rw [List.mem_filter] at hl
    obtain ⟨hw, hfound⟩ := Option.map_eq_some.mp hjoin
    have hlog : r.log = l := by
      rw [hfound.2.symm]
      rfl
    have hpred := hl.2
    unfold pendingDuePred at hpred
    rw [Bool.and_eq_true, beq_iff_eq] at hpred
    rw [hlog]
    refine ⟨hpred.1, ?_⟩
    rcases hnr : l.nextRetryAt with _ | t
    · exact Or.inl rfl
    · refine Or.inr ⟨t, rfl, ?_⟩
      have := hpred.2
      rw [hnr] at this
      simpa using this
  · have hp := pairwise_sortBy (fun (a b : PendingLog) => decide (a.log.createdAt ≤ b.log.createdAt))
      (fun a b => by rcases Int.le_total a.log.createdAt b.log.createdAt with h | h <;>
        simp [h])
      (fun a b c hab hbc => by
        simp only [decide_eq_true_eq] at *
        omega)
      ((db.logs.filter (pendingDuePred nowNs)).filterMap
        (fun l => (db.webhooks.find? (fun w => w.id == l.webhookId)).map (mkPendingLog l)))
    have hsub := List.Pairwise.sublist (List.take_sublist limit _) hp
    exact hsub.imp (fun h => by simpa using h)
  · unfold getPendingWebhookLogs
    exact List.length_take_le _ _

/-- Concrete due pending log row for witnesses. -/
def logEx : WebhookLog :=
  { id := 1, webhookId := 1, event := "subscriber.created",
    url := "http://example.invalid/a", payload := [], status := webhookLogStatusPending,
    responseCode := none, responseBody := [], error := "", attempts := 0,
    nextRetryAt := none, createdAt := 0 }

/-- Concrete database for witnesses. -/
def dbEx : DB := { webhooks := [wh0], logs := [logEx] }

/-- Witness for the C6 theorem at a concrete database. -/
theorem pending_due_selection_witness :
    mkPendingLog logEx wh0 ∈ getPendingWebhookLogs dbEx 5 100 ∧
    (mkPendingLog logEx wh0).log.status = webhookLogStatusPending := by
  have h := pending_due_selection dbEx 5 100 (mkPendingLog logEx wh0) (by decide)
  exact ⟨by decide, h.1.1⟩

/-! ## Log row state machine (C7): the worker only ever picks up pending
rows (get-pending-webhook-logs filters on status) and finalizes them
through updateLogFailed, handleDeliveryError or the response path of
deliverWebhook. -/

/-- One worker finalization step on a log row joined with its endpoint
w: a request build error, a transport error (code 0, empty body), or a
received response. Every path requires the picked-up row to be pending. -/
inductive LogStep (w : Webhook) : WebhookLog → WebhookLog → Prop where
  | buildFail (r : WebhookLog) (err : String)
      (hp : r.status = webhookLogStatusPending) :
      LogStep w r (updateLogFailed (mkPendingLog r w) 0 [] err)
  | transportFail (r : WebhookLog) (nowNs : Int) (err : String)
      (hp : r.status = webhookLogStatusPending) :
      LogStep w r (handleDeliveryError (mkPendingLog r w) nowNs 0 [] err)
  | response (r : WebhookLog) (nowNs code : Int) (fullBody : List Nat)
      (hp : r.status = webhookLogStatusPending) :
      LogStep w r (deliverResponse (mkPendingLog r w) nowNs code fullBody)

/-- Reachability of a row state from an initial row by worker steps. -/
def logReachable (w : Webhook) (r0 r : WebhookLog) : Prop :=
  Relation.ReflTransGen (LogStep w) r0 r

theorem attempts_handleDeliveryError (l : PendingLog) (nowNs code : Int)
    (body : List Nat) (err : String) :
    (handleDeliveryError l nowNs code body err).attempts = l.log.attempts + 1 := by
  unfold handleDeliveryError
  by_cases hc : l.log.attempts + 1 > l.maxRetries <;>
    simp [hc, updateLogFailed, applyLogUpdate]

theorem attempts_deliverResponse (l : PendingLog) (nowNs code : Int) (fullBody : List Nat) :
    (deliverResponse l nowNs code fullBody).attempts = l.log.attempts + 1 := by
  unfold deliverResponse
  by_cases hc : 200 ≤ code ∧ code < 300 <;>
    simp [hc, updateLogSuccess, applyLogUpdate, attempts_handleDeliveryError]

theorem logStep_attempts (w : Webhook) (p q : WebhookLog) (h : LogStep w p q) :
    q.attempts = p.attempts + 1 := by
  cases h with
  | buildFail err hp => rfl
  | transportFail nowNs err hp => exact attempts_handleDeliveryError _ _ _ _ _
  | response nowNs code fullBody hp => exact attempts_deliverResponse _ _ _ _

/-- Inductive invariant of a log row: pending rows have spent at most
max_retries attempts, terminal rows at most max_retries + 1. -/
def logInvariant (w : Webhook) (r : WebhookLog) : Prop :=
  (r.status = webhookLogStatusPending → 0 ≤ r.attempts ∧ r.attempts ≤ w.maxRetries) ∧
  ((r.status = webhookLogStatusSuccess ∨ r.status = webhookLogStatusFailed) →
    r.attempts ≤ w.maxRetries + 1)

theorem logStep_preserves (w : Webhook) (hmr : 0 ≤ w.maxRetries) (p q : WebhookLog)
    (hstep : LogStep w p q) (hinv : logInvariant w p) : logInvariant w q := by
  cases hstep with
  | buildFail err hp =>
    have hbound := (hinv.1 hp).2
    constructor
    · intro hq
      simp [updateLogFailed, applyLogUpdate, webhookLogStatusFailed,
        webhookLogStatusPending] at hq
    · intro _
      show p.attempts + 1 ≤ w.maxRetries + 1
      omega
  | transportFail nowNs err hp =>
    have hbound := (hinv.1 hp).2
    have h0 := (hinv.1 hp).1
    unfold handleDeliveryError
    by_cases hc : p.attempts + 1 > w.maxRetries
    · rw [if_pos (show (mkPendingLog p w).log.attempts + 1 > (mkPendingLog p w).maxRetries
          from hc)]
      constructor
      · intro hq
        simp [updateLogFailed, applyLogUpdate, webhookLogStatusFailed,
          webhookLogStatusPending] at hq
      · intro _
        show p.attempts + 1 ≤ w.maxRetries + 1
        omega
    · rw [if_neg (show ¬ (mkPendingLog p w).log.attempts + 1 > (mkPendingLog p w).maxRetries
          from hc)]
      constructor
      · intro _
        constructor
        · show 0 ≤ p.attempts + 1
          omega
        · show p.attempts + 1 ≤ w.maxRetries
          omega
      · intro hq
        simp [applyLogUpdate, webhookLogStatusFailed, webhookLogStatusSuccess,
          webhookLogStatusPending] at hq
  | response nowNs code fullBody hp =>
    have hbound := (hinv.1 hp).2
    have h0 := (hinv.1 hp).1
    unfold deliverResponse
    by_cases h2xx : 200 ≤ code ∧ code < 300
    · rw [if_pos h2xx]
      constructor
      · intro hq
        simp [updateLogSuccess, applyLogUpdate, webhookLogStatusSuccess,
          webhookLogStatusPending] at hq
      · intro _
        show p.attempts + 1 ≤ w.maxRetries + 1
        omega
    · rw [if_neg h2xx]
      unfold handleDeliveryError
      by_cases hc : p.attempts + 1 > w.maxRetries
      · rw [if_pos (show (mkPendingLog p w).log.attempts + 1 > (mkPendingLog p w).maxRetries
            from hc)]
        constructor
        · intro hq
          simp [updateLogFailed, applyLogUpdate, webhookLogStatusFailed,
            webhookLogStatusPending] at hq
        · intro _
          show p.attempts + 1 ≤ w.maxRetries + 1
          omega
      · rw [if_neg (show ¬ (mkPendingLog p w).log.attempts + 1 > (mkPendingLog p w).maxRetries
            from hc)]
        constructor
        · intro _
          constructor
          · show 0 ≤ p.attempts + 1
            omega
          · show p.attempts + 1 ≤ w.maxRetries
            omega
        · intro hq
          simp [applyLogUpdate, webhookLogStatusFailed, webhookLogStatusSuccess,
            webhookLogStatusPending] at hq

/-- C7: starting from a pending row with attempts 0, every worker step
increments attempts by exactly one (so attempts never decreases), and
any reachable terminal row (success or failed) has attempts at most
max_retries + 1, for a non-negative retry budget. -/
theorem attempts_monotone_bounded (w : Webhook) (r0 r : WebhookLog)
    (hmr : 0 ≤ w.maxRetries)
    (hs0 : r0.status = webhookLogStatusPending) (ha0 : r0.attempts = 0)
    (hre : logReachable w r0 r) :
    (∀ p q, LogStep w p q → q.attempts = p.attempts + 1 ∧ p.attempts ≤ q.attempts) ∧
    ((r.status = webhookLogStatusSuccess ∨ r.status = webhookLogStatusFailed) →
      r.attempts ≤ w.maxRetries + 1) := by
  constructor
  · intro p q hstep
    have h := logStep_attempts w p q hstep
    exact ⟨h, by omega⟩
  · have hinv : logInvariant w r := by
      unfold logReachable at hre
      induction hre with
      | refl =>
        constructor
        · intro _
          omega
        · intro _
          omega
      | tail hsteps hstep ih => exact logStep_preserves w hmr _ _ hstep ih
    exact hinv.2

/-- Witness for the C7 theorem: the initial row itself, reachable by the
empty step sequence. -/
theorem attempts_monotone_bounded_witness :
    (0 : Int) ≤ wh0.maxRetries ∧ logEx.status = webhookLogStatusPending ∧
    logEx.attempts = 0 ∧
    ((logEx.status = webhookLogStatusSuccess ∨ logEx.status = webhookLogStatusFailed) →
      logEx.attempts ≤ wh0.maxRetries + 1) := by
  refine ⟨by decide, rfl, rfl, ?_⟩
  exact (attempts_monotone_bounded wh0 logEx logEx (by decide) rfl rfl
    Relation.ReflTransGen.refl).2

/-! ## Worker loop and shutdown (Manager.worker, Manager.Close) -/

/-- Signal observed by the worker select loop at the top of an
iteration: either the closed stop channel (Close broadcasts it by
closing stopCh) or a ticker tick. -/
inductive WorkerSig where
  | stop
  | tick
deriving DecidableEq, Repr

/-- Manager.worker as a function of the sequence of observed signals:
on stop the worker returns immediately; on a tick it performs one
pending-due fetch (processPendingLogs with limit 100) and loops. The
result collects the fetched batches in order. -/
def workerRun (db : DB) (nowNs : Int) : List WorkerSig → List (List PendingLog)
  | [] => []
  | WorkerSig.stop :: _ => []
  | WorkerSig.tick :: rest => getPendingWebhookLogs db nowNs 100 :: workerRun db nowNs rest

/-- C9: once the worker observes the stop signal between batches, it
performs no further pending-due fetch: the batches fetched do not
depend on anything after the stop signal, and their number is exactly
the number of ticks observed before the stop. -/
theorem worker_stops_after_close (db : DB) (nowNs : Int) (pre post : List WorkerSig)
    (hpre : WorkerSig.stop ∉ pre) :
    workerRun db nowNs (pre ++ WorkerSig.stop :: post)
      = workerRun db nowNs (pre ++ [WorkerSig.stop]) ∧
    (workerRun db nowNs (pre ++ WorkerSig.stop :: post)).length = pre.length := by
  induction pre with
  | nil => simp [workerRun]
  | cons s rest ih =>
    have hs : s ≠ WorkerSig.stop := fun h => hpre (h ▸ List.mem_cons_self s rest)
    have hrest : WorkerSig.stop ∉ rest := fun h => hpre (List.mem_cons_of_mem s h)
    cases s with
    | stop => exact absurd rfl hs
    | tick =>
      obtain ⟨ih1, ih2⟩ := ih hrest
      constructor
      · show getPendingWebhookLogs db nowNs 100 ::
            workerRun db nowNs (rest ++ WorkerSig.stop :: post)
          = getPendingWebhookLogs db nowNs 100 ::
            workerRun db nowNs (rest ++ [WorkerSig.stop])
        rw [ih1]
      · show (getPendingWebhookLogs db nowNs 100 ::
            workerRun db nowNs (rest ++ WorkerSig.stop :: post)).length = rest.length + 1
        simp [ih2]

/-- Witness for the C9 theorem: one tick before the stop, two ticks
after it; exactly one batch is fetched. -/
theorem worker_stops_after_close_witness :
    WorkerSig.stop ∉ [WorkerSig.tick] ∧
    (workerRun dbEx 5 ([WorkerSig.tick] ++ WorkerSig.stop ::
      [WorkerSig.tick, WorkerSig.tick])).length = 1 := by
  refine ⟨by decide, ?_⟩
  exact (worker_stops_after_close dbEx 5 [WorkerSig.tick]
    [WorkerSig.tick, WorkerSig.tick] (by decide)).2

/-! ## Admin CRUD (Core.CreateWebhook, Core.UpdateWebhook; SQL
create-webhook, update-webhook) -/

/-- Modelled from the spec: the length-range validation helper
(strHasLen) used by CreateWebhook and UpdateWebhook is defined outside
the given sources; per the admin contract it checks that the string
length lies between the bounds, Go string length being the byte length. -/
def strHasLen (s : String) (lo hi : Nat) : Bool :=
  decide (lo ≤ s.utf8ByteSize) && decide (s.utf8ByteSize ≤ hi)

/-- Auth type coercion shared by CreateWebhook and UpdateWebhook:
anything outside none, basic, hmac becomes none. -/
def normalizeAuthType (t : String) : String :=
  if t = webhookAuthTypeNone ∨ t = webhookAuthTypeBasic ∨ t = webhookAuthTypeHMAC then t
  else webhookAuthTypeNone

/-- Validation shared by CreateWebhook and UpdateWebhook: name length
1..200, url length 1..2000, non-empty events all drawn from the fixed
event list. -/
def validateWebhook (w : Webhook) : Bool :=
  strHasLen w.name 1 200 && strHasLen w.url 1 2000 && !w.events.isEmpty &&
    w.events.all (fun e => allWebhookEvents.contains e)

/-- Core.CreateWebhook: validate, coerce the auth type, apply defaults
(status enabled, max_retries 3 when the given value is at most 0,
retry_interval and timeout 30s when empty) and store. Returns the
stored webhook, none on validation failure. -/
def createWebhook (w : Webhook) : Option Webhook :=
  if validateWebhook w then
    some { w with
      authType := normalizeAuthType w.authType,
      status := if w.status = "" then webhookStatusEnabled else w.status,
      maxRetries := if w.maxRetries ≤ 0 then 3 else w.maxRetries,
      retryInterval := if w.retryInterval = "" then "30s" else w.retryInterval,
      timeout := if w.timeout = "" then "30s" else w.timeout }
  else none

/-- Core.UpdateWebhook with the update-webhook statement: validate,
coerce the auth type, then overwrite the stored row with the given
values; empty-string secrets keep the stored secrets; max_retries is
stored as given, with no coercion and no defaults. -/
def updateWebhook (old w : Webhook) : Option Webhook :=
  if validateWebhook w then
    some { old with
      name := w.name, url := w.url, status := w.status, events := w.events,
      authType := normalizeAuthType w.authType,
      authBasicUser := w.authBasicUser,
      authBasicPass := if w.authBasicPass = "" then old.authBasicPass else w.authBasicPass,
      authHMACSecret := if w.authHMACSecret = "" then old.authHMACSecret else w.authHMACSecret,
      maxRetries := w.maxRetries, retryInterval := w.retryInterval, timeout := w.timeout }
  else none

/-- C10: a webhook created with max_retries at most 0 is stored with
max_retries 3, a created webhook never has max_retries 0, and an update
stores the given max_retries unchanged, so a stored endpoint with
max_retries 0 can only come from an update. -/
theorem createWebhook_maxRetries_coercion (w w2 old u u2 : Webhook)
    (hc : createWebhook w = some w2) (hu : updateWebhook old u = some u2) :
    (w.maxRetries ≤ 0 → w2.maxRetries = 3) ∧
    w2.maxRetries ≠ 0 ∧
    u2.maxRetries = u.maxRetries := by
  unfold createWebhook at hc
  unfold updateWebhook at hu
  by_cases hv : validateWebhook w
  · rw [if_pos hv] at hc
    have hw2 := Option.some.inj hc
    by_cases hv2 : validateWebhook u
    · rw [if_pos hv2] at hu
      have hu2 := Option.some.inj hu
      subst hw2
      subst hu2
      refine ⟨fun hle => by simp [hle], ?_, rfl⟩
      by_cases hle : w.maxRetries ≤ 0
      · simp [hle]
      · simp [hle]
        omega
    · rw [if_neg hv2] at hu
      cases hu
  · rw [if_neg hv] at hc
    cases hc

/-- Webhook submitted to creation with max_retries 0 and a bogus auth
type. -/
def wCreateEx : Webhook :=
  { id := 0, uuid := "", name := "n", url := "http://example.invalid",
    status := "", events := ["subscriber.created"], authType := "bogus",
    authBasicUser := "", authBasicPass := "", authHMACSecret := "",
    maxRetries := 0, retryInterval := "", timeout := "", createdAt := 0 }

/-- Stored result of creating wCreateEx. -/
def wCreatedEx : Webhook :=
  { wCreateEx with
    authType := webhookAuthTypeNone, status := webhookStatusEnabled,
    maxRetries := 3, retryInterval := "30s", timeout := "30s" }

/-- Webhook submitted to update with max_retries 0. -/
def uZeroEx : Webhook :=
  { wCreateEx with
    status := webhookStatusEnabled, authType := webhookAuthTypeNone,
    retryInterval := "30s", timeout := "30s" }

/-- Stored result of updating wh0 with uZeroEx. -/
def uStoredEx : Webhook :=
  { id := 1, uuid := "", name := "n", url := "http://example.invalid",
    status := webhookStatusEnabled, events := ["subscriber.created"],
    authType := webhookAuthTypeNone, authBasicUser := "", authBasicPass := "",
    authHMACSecret := "", maxRetries := 0, retryInterval := "30s",
    timeout := "30s", createdAt := 0 }

/-- Witness for the C10 theorem: creation coerces max_retries 0 to 3,
the update stores max_retries 0 unchanged. -/
theorem createWebhook_maxRetries_coercion_witness :
    wCreateEx.maxRetries ≤ 0 ∧ wCreatedEx.maxRetries = 3 ∧
    uStoredEx.maxRetries = uZeroEx.maxRetries := by
  have h := createWebhook_maxRetries_coercion wCreateEx wCreatedEx wh0 uZeroEx uStoredEx
    (by decide) (by decide)
  exact ⟨by decide, h.1 (by decide), h.2.2⟩
